import Mathlib

/-!
# Verification of the `ParallelVec` structure-of-arrays container

Shallow embedding of `src/lib.rs` (`ParallelVec<Param>` and the
macro-generated `ParallelVecParam` tuple instances).

Modelling conventions:

* The `Param` tuple of column values is modelled as a single type `α` holding
  one logical element.  All columns share one index, one length and one
  allocation, and every `ParallelVecParam` operation (`read`, `write`, `swap`,
  `drop`, `copy_to_nonoverlapping`) acts on all columns in lock-step at a
  common index, so a logical element can be treated as one value.
* Machine integers (`usize`) are modelled as `Nat`.
* The `Param::Storage` pointer bundle is modelled as an allocation
  identifier: `Param::dangling()` is identifier `0` and every call to
  `Param::alloc` yields a fresh identifier (`storage + 1`).  Operations that
  do not reallocate leave `storage` unchanged.
* The contents of the allocation are modelled as `data : List (Option α)`,
  one cell per slot; `none` is an uninitialized cell.  Reading an
  uninitialized cell (or a cell outside the allocation) is undefined
  behaviour in the Rust source; the model reads such a cell as `none`.
* A Rust panic is modelled by returning the unchanged state together with no
  value (the call never completes, so no post-state is observable).
-/

/-- The state of a `ParallelVec<Param>`: the fields `len`, `capacity` and
`storage` of the Rust struct, plus `data`, the contents of the single
allocation behind the `storage` pointer bundle. -/
structure ParallelVec (α : Type) where
  len : Nat
  capacity : Nat
  storage : Nat
  data : List (Option α)
deriving DecidableEq

/-- `ParallelVecConversionError` from `src/lib.rs`. -/
inductive ParallelVecConversionError where
  | UnevenLengths
deriving DecidableEq

namespace ParallelVec

variable {α : Type}

/-- `ParallelVec::new`: `len = 0`, `capacity = 0`, `storage = dangling`. -/
def new : ParallelVec α :=
  { len := 0, capacity := 0, storage := 0, data := [] }

/-- `Param::alloc(capacity)` followed by
`Param::copy_to_nonoverlapping(src, dst, len)`: a fresh block of `capacity`
uninitialized cells whose first `len` cells receive the first `len` cells of
`src`. -/
def allocCopy (src : List (Option α)) (len capacity : Nat) : List (Option α) :=
  (List.range capacity).map fun i => if i < len then src.getD i none else none

/-- `ParallelVec::with_capacity`: `new` when `capacity == 0`, otherwise one
fresh uninitialized allocation of exactly `capacity` slots with `len = 0`. -/
def with_capacity (capacity : Nat) : ParallelVec α :=
  if capacity = 0 then new
  else
    { len := 0, capacity := capacity, storage := 1,
      data := List.replicate capacity none }

/-- Rust `usize::next_power_of_two` (standard-library collaborator, modelled
from its documentation): the smallest power of two greater than or equal to
`n`, with `next_power_of_two 0 = 1`. -/
def next_power_of_two (n : Nat) : Nat :=
  if n ≤ 1 then 1 else 2 ^ (Nat.log2 (n - 1) + 1)

/-- `ParallelVec::reserve`: if `len + additional > capacity`, allocate
`max(next_power_of_two(len + additional), 4)` slots, copy the first `len`
cells over, deallocate the old block and adopt the new storage; otherwise do
nothing. -/
def reserve (v : ParallelVec α) (additional : Nat) : ParallelVec α :=
  let new_len := v.len + additional
  if new_len > v.capacity then
    let capacity := max (next_power_of_two new_len) 4
    { len := v.len, capacity := capacity, storage := v.storage + 1,
      data := allocCopy v.data v.len capacity }
  else v

/-- `ParallelVec::push`: `reserve(1)`, `Param::write` at offset `len`, then
`len += 1`. -/
def push (v : ParallelVec α) (value : α) : ParallelVec α :=
  let v := reserve v 1
  { v with data := v.data.set v.len (some value), len := v.len + 1 }

/-- `ParallelVec::pop`: `None` when `len == 0`; otherwise `Param::read` at
offset `self.len` (exactly as in the source: the offset is the *undecremented*
length), then `len -= 1`.  The inner `Option` is the cell read: `none` is an
uninitialized cell. -/
def pop (v : ParallelVec α) : Option (Option α) × ParallelVec α :=
  if v.len = 0 then (none, v)
  else (some (v.data.getD v.len none), { v with len := v.len - 1 })

/-- `ParallelVec::swap`: panics (modelled as an unchanged state with no
completed effect) when `a >= len` or `b >= len`; otherwise
`Param::swap` of the cells at `a` and `b`. -/
def swap (v : ParallelVec α) (a b : Nat) : ParallelVec α :=
  if a ≥ v.len then v
  else if b ≥ v.len then v
  else
    { v with
      data := (v.data.set a (v.data.getD b none)).set b (v.data.getD a none) }

/-- `ParallelVec::truncate`: no-op when `self.len <= len`; otherwise set
`self.len = len` and run `Param::drop` on indices `len..old_len`.  The second
component is the list of cell values passed to `Param::drop`. -/
def truncate (v : ParallelVec α) (len : Nat) :
    ParallelVec α × List (Option α) :=
  if v.len ≤ len then (v, [])
  else
    ({ v with len := len },
     (List.range' len (v.len - len)).map fun idx => v.data.getD idx none)

/-- `ParallelVec::clear`: `truncate(0)`. -/
def clear (v : ParallelVec α) : ParallelVec α × List (Option α) :=
  truncate v 0

/-- `ParallelVec::shrink_to`: no-op when `min_capacity > capacity`; otherwise
allocate `max(len, min_capacity)` slots, copy the first `len` cells, free the
old block and adopt the new storage and capacity. -/
def shrink_to (v : ParallelVec α) (min_capacity : Nat) : ParallelVec α :=
  if min_capacity > v.capacity then v
  else
    let capacity := max v.len min_capacity
    { len := v.len, capacity := capacity, storage := v.storage + 1,
      data := allocCopy v.data v.len capacity }

/-- `ParallelVec::shrink_to_fit`: `shrink_to(len)`. -/
def shrink_to_fit (v : ParallelVec α) : ParallelVec α :=
  shrink_to v v.len

/-- `Param::write` of a sequence of cells at consecutive offsets starting at
`start` (the destination side of `Param::copy_to_nonoverlapping`). -/
def writeSeq : List (Option α) → Nat → List (Option α) → List (Option α)
  | data, _, [] => data
  | data, start, x :: xs => writeSeq (data.set start x) (start + 1) xs

/-- `ParallelVec::append`: `self.reserve(other.len)`, bulk-copy `other`'s
first `other.len` cells to offsets `self.len..`, then `other.clear()`.
Exactly as in the source, `self.len` is never changed.  Returns the new
`self`, the new `other`, and the cell values destroyed by `other.clear()`. -/
def append (self other : ParallelVec α) :
    ParallelVec α × ParallelVec α × List (Option α) :=
  let s := reserve self other.len
  let s :=
    { s with
      data := writeSeq s.data s.len
        ((List.range other.len).map fun i => other.data.getD i none) }
  let c := clear other
  (s, c.1, c.2)

/-- `ParallelVec::swap_remove`: panics (modelled as `(none, v)`) when
`index >= len`; otherwise `Param::read` at `index`, `len -= 1`, and when the
new `len` differs from `index`, copy the cell at the new `len` into slot
`index`. -/
def swap_remove (v : ParallelVec α) (index : Nat) :
    Option (Option α) × ParallelVec α :=
  if index ≥ v.len then (none, v)
  else
    let value := v.data.getD index none
    let v1 : ParallelVec α := { v with len := v.len - 1 }
    let v2 : ParallelVec α :=
      if v1.len ≠ index then
        { v1 with data := v1.data.set index (v1.data.getD v1.len none) }
      else v1
    (some value, v2)

/-- `ParallelVec::get`: `None` when `len <= index`, otherwise the cell at
`index` (the referent of the returned reference bundle). -/
def get (v : ParallelVec α) (index : Nat) : Option (Option α) :=
  if v.len ≤ index then none else some (v.data.getD index none)

/-- `impl Drop for ParallelVec`: the source first assigns `self.len = 0` and
only then runs `Param::drop` for `idx in 0..self.len`, finally calling
`Param::dealloc(storage, capacity)`.  Returns the indices passed to
`Param::drop` and the capacity passed to `Param::dealloc`. -/
def drop (v : ParallelVec α) : List Nat × Nat :=
  let v := { v with len := 0 }
  (List.range v.len, v.capacity)

/-- The capacities passed to `Param::alloc` by `with_capacity`. -/
def with_capacity_allocs (capacity : Nat) : List Nat :=
  if capacity = 0 then [] else [capacity]

/-- The capacities passed to `Param::alloc` by `reserve`. -/
def reserve_allocs (v : ParallelVec α) (additional : Nat) : List Nat :=
  if v.len + additional > v.capacity then
    [max (next_power_of_two (v.len + additional)) 4]
  else []

/-- The capacities passed to `Param::alloc` by `shrink_to`. -/
def shrink_to_allocs (v : ParallelVec α) (min_capacity : Nat) : List Nat :=
  if min_capacity > v.capacity then [] else [max v.len min_capacity]

/-- The capacities passed to `Param::alloc` by `shrink_to_fit`. -/
def shrink_to_fit_allocs (v : ParallelVec α) : List Nat :=
  shrink_to_allocs v v.len

/-- `ParallelVecParam::get_vec_len` for the arity-3 tuple instance: `Some`
of the shared length when all three vectors agree, `None` otherwise. -/
def get_vec_len {β γ δ : Type} (vecs : List β × List γ × List δ) :
    Option Nat :=
  let len := vecs.1.length
  if vecs.2.1.length ≠ len then none
  else if vecs.2.2.length ≠ len then none
  else some len

/-- Zip of the three column vectors into logical elements (the row-major view
of the bulk move done by `try_from`). -/
def zip3 {β γ δ : Type} : List β → List γ → List δ → List (β × γ × δ)
  | b :: bs, c :: cs, d :: ds => (b, c, d) :: zip3 bs cs ds
  | _, _, _ => []

/-- `TryFrom<(Vec<T1>, Vec<T2>, Vec<T3>)>::try_from` (the arity-3 instance of
the macro-generated family): check `get_vec_len`; on success build
`Self::with_capacity(len)` and bulk-copy the vectors' elements into cells
`0..len` (`mem::forget(vecs)` destroys nothing); on failure return the
`UnevenLengths` error.  Exactly as in the source, the `len` field of the
result is the one set by `with_capacity`. -/
def try_from {β γ δ : Type} (vecs : List β × List γ × List δ) :
    Except ParallelVecConversionError (ParallelVec (β × γ × δ)) :=
  match get_vec_len vecs with
  | some len =>
    let pv : ParallelVec (β × γ × δ) := with_capacity len
    .ok { pv with
          data := writeSeq pv.data 0
            ((zip3 vecs.1 vecs.2.1 vecs.2.2).map some) }
  | none => .error ParallelVecConversionError.UnevenLengths

/-- One public mutating operation of §4.4, for stating whole-trace
invariants. -/
inductive Op (α : Type) where
  | push (value : α)
  | pop
  | swap (a b : Nat)
  | swap_remove (index : Nat)
  | truncate (len : Nat)
  | clear
  | reserve (additional : Nat)
  | shrink_to (min_capacity : Nat)
  | shrink_to_fit
  | append (other : ParallelVec α)

/-- Apply one public operation to the container state. -/
def applyOp (v : ParallelVec α) : Op α → ParallelVec α
  | .push value => v.push value
  | .pop => (v.pop).2
  | .swap a b => v.swap a b
  | .swap_remove i => (v.swap_remove i).2
  | .truncate n => (v.truncate n).1
  | .clear => (v.clear).1
  | .reserve k => v.reserve k
  | .shrink_to m => v.shrink_to m
  | .shrink_to_fit => v.shrink_to_fit
  | .append other => (v.append other).1

end ParallelVec

/-- **C1**: the claim says `pop` on a non-empty container removes and returns
the logical element at index `len - 1`.  The source instead reads at offset
`self.len` before decrementing — one past the last initialized element.  On a
container holding the single element `7` (stored at index `len - 1 = 0`, as
`get 0` shows), `pop` returns the uninitialized cell at index `1` rather than
the element `7`. -/
theorem C1_pop_reads_one_past_end :
    ((ParallelVec.new : ParallelVec Nat).push 7).pop
      = (some none,
         { len := 0, capacity := 4, storage := 1,
           data := [some 7, none, none, none] })
    ∧ ((ParallelVec.new : ParallelVec Nat).push 7).get 0 = some (some 7)
    ∧ (some none : Option (Option Nat)) ≠ some (some 7) := by
  refine ⟨rfl, rfl, by decide⟩

/-- **C2**: the claim says destroying a container holding `n` elements runs
the per-column destructor exactly once for each index in `0..n`, using the
length captured before any mutation of `len`.  The source assigns
`self.len = 0` *before* the `for idx in 0..self.len` loop, so dropping a
container with two initialized elements destroys the elements at no index at
all (`[]` instead of `[0, 1]`). -/
theorem C2_drop_destroys_nothing :
    (((ParallelVec.new : ParallelVec Nat).push 1).push 2).drop = ([], 4)
    ∧ (((ParallelVec.new : ParallelVec Nat).push 1).push 2).len = 2
    ∧ ([] : List Nat) ≠ List.range 2 := by
  refine ⟨rfl, rfl, by decide⟩

/-- **C3**: the claim says `append` leaves `self` with length `m + k` and does
not destroy the moved values when emptying `other`.  The source never adds
`other.len` to `self.len`, and `other.clear()` runs `Param::drop` on the moved
values.  Appending a one-element container to a one-element container leaves
`self.len = 1` (not `2`) and destroys the moved value `2`. -/
theorem C3_append_drops_moved_values :
    (((ParallelVec.new : ParallelVec Nat).push 1).append
        ((ParallelVec.new : ParallelVec Nat).push 2)).1.len = 1
    ∧ (((ParallelVec.new : ParallelVec Nat).push 1).append
        ((ParallelVec.new : ParallelVec Nat).push 2)).2.2 = [some 2]
    ∧ (((ParallelVec.new : ParallelVec Nat).push 1).append
        ((ParallelVec.new : ParallelVec Nat).push 2)).2.1.len = 0
    ∧ (1 : Nat) ≠ 1 + 1 := by
  refine ⟨rfl, rfl, rfl, by decide⟩

/-- **C4**: the claim says converting three equal-length vectors yields a
container of length `L` whose element at index `1` is `(2, "b", false)`.  The
source builds the result with `Self::with_capacity(len)` — which sets
`len = 0` — and never updates the `len` field, so the conversion of
`([1,2,3], ["a","b","c"], [true,false,true])` succeeds but yields a container
of length `0` on which `get 1` reports absence.  The uneven-lengths case does
return the `UnevenLengths` error as claimed. -/
theorem C4_try_from_yields_length_zero :
    (ParallelVec.try_from
        (([1, 2, 3] : List Nat), (["a", "b", "c"] : List String),
         ([true, false, true] : List Bool))).toOption.map ParallelVec.len
      = some 0
    ∧ (ParallelVec.try_from
        (([1, 2, 3] : List Nat), (["a", "b", "c"] : List String),
         ([true, false, true] : List Bool))).toOption.map (fun pv => pv.get 1)
      = some none
    ∧ ParallelVec.try_from
        (([1, 2, 3] : List Nat), ([4, 5] : List Nat), ([6] : List Nat))
      = .error ParallelVecConversionError.UnevenLengths := by
  refine ⟨rfl, rfl, rfl⟩

/-- **C9**: the claim says no reachable call to `Param::alloc` has capacity
`0`.  But `shrink_to_fit` on the empty container `new` calls
`shrink_to(0)`, which takes the allocating branch (`0 > 0` is false) and
passes `max(len, min_capacity) = 0` to `Param::alloc`, violating `alloc`'s
documented non-zero-capacity safety requirement. -/
theorem C9_shrink_to_fit_calls_alloc_zero :
    (ParallelVec.new : ParallelVec Nat).shrink_to_fit_allocs = [0]
    ∧ ¬ (0 : Nat) > 0 := by
  refine ⟨rfl, by decide⟩

namespace ParallelVec

theorem allocCopy_length {α : Type} (src : List (Option α)) (l c : Nat) :
    (allocCopy src l c).length = c := by
  simp [allocCopy]

theorem allocCopy_getD {α : Type} (src : List (Option α)) (l c i : Nat)
    (h : i < c) :
    (allocCopy src l c).getD i none
      = if i < l then src.getD i none else none := by
  rw [allocCopy, List.getD_eq_getElem?_getD, List.getElem?_map,
    List.getElem?_range h]
  rfl

theorem allocCopy_take {α : Type} (src : List (Option α)) (l c : Nat)
    (hl : l ≤ src.length) (hc : l ≤ c) :
    (allocCopy src l c).take l = src.take l := by
  apply List.ext_getElem
  · simp [allocCopy]
    omega
  · intro j h1 h2
    simp only [List.getElem_take, allocCopy, List.getElem_map,
      List.getElem_range]
    have hj : j < l := by
      simp [allocCopy] at h1
      omega
    rw [if_pos hj, List.getD_eq_getElem?_getD,
      List.getElem?_eq_getElem (by omega)]
    rfl

theorem allocCopy_idem {α : Type} (src : List (Option α)) (l : Nat) :
    allocCopy (allocCopy src l l) l l = allocCopy src l l := by
  apply List.ext_getElem
  · simp [allocCopy]
  · intro j h1 h2
    have hj : j < l := by
      simpa [allocCopy] using h1
    simp only [allocCopy, List.getElem_map, List.getElem_range, if_pos hj]
    rw [List.getD_eq_getElem?_getD, List.getElem?_map, List.getElem?_range hj]
    simp [hj]

theorem npot_ge {n : Nat} : n ≤ next_power_of_two n := by
  unfold next_power_of_two
  split
  · omega
  · have h2 : (1 : Nat) < 2 := one_lt_two
    have hlt := Nat.lt_pow_succ_log_self h2 (n - 1)
    rw [Nat.log2_eq_log_two]
    omega

theorem getD_set_self {β : Type} (l : List β) (i : Nat) (a d : β)
    (h : i < l.length) : (l.set i a).getD i d = a := by
  rw [List.getD_eq_getElem?_getD, List.getElem?_set_self h]
  rfl

theorem getD_set_ne {β : Type} (l : List β) (i j : Nat) (a d : β)
    (h : i ≠ j) : (l.set i a).getD j d = l.getD j d := by
  rw [List.getD_eq_getElem?_getD, List.getElem?_set_ne h,
    List.getD_eq_getElem?_getD]

theorem take_set {β : Type} (l : List β) (i : Nat) (a : β) :
    (l.set i a).take i = l.take i := by
  apply List.ext_getElem
  · simp
  · intro j h1 h2
    have hj : j < i := by
      simp at h1
      omega
    simp only [List.getElem_take]
    exact List.getElem_set_ne (show i ≠ j by omega)
      (by simp at h1 ⊢; omega)

theorem drop_set {β : Type} (l : List β) (i : Nat) (a : β) :
    (l.set i a).drop (i + 1) = l.drop (i + 1) := by
  apply List.ext_getElem
  · simp
  · intro j h1 h2
    simp only [List.getElem_drop]
    exact List.getElem_set_ne (show i ≠ i + 1 + j by omega)
      (by simp at h1 ⊢; omega)

end ParallelVec

/-- **C5**: for `i < len`, `swap_remove i` returns the element formerly at
index `i`, decrements the length, leaves the cells at indices `[0, i)` and
above `i` unchanged, and when `i < len - 1` places the element formerly at
index `len - 1` into slot `i`; for `i >= len` it panics (modelled as
`(none, v)`). -/
theorem C5_swap_remove_correct {α : Type} (v : ParallelVec α) (i : Nat) :
    (v.len ≤ i → v.swap_remove i = (none, v))
    ∧ (i < v.len → v.len ≤ v.data.length →
        (v.swap_remove i).1 = some (v.data.getD i none)
        ∧ (v.swap_remove i).2.len = v.len - 1
        ∧ (v.swap_remove i).2.data.take i = v.data.take i
        ∧ (v.swap_remove i).2.data.drop (i + 1) = v.data.drop (i + 1)
        ∧ (i + 1 < v.len →
            (v.swap_remove i).2.data.getD i none
              = v.data.getD (v.len - 1) none)) := by
  constructor
  · intro h
    simp [ParallelVec.swap_remove, h]
  · intro h hwf
    have hcond : ¬ i ≥ v.len := Nat.not_le.mpr h
    by_cases hlast : v.len - 1 = i
    · have e : v.swap_remove i
          = (some (v.data.getD i none), { v with len := v.len - 1 }) := by
        simp [ParallelVec.swap_remove, hcond, hlast]
      rw [e]
      exact ⟨rfl, rfl, rfl, rfl, fun hlt => absurd hlast (by omega)⟩
    · have e : v.swap_remove i
          = (some (v.data.getD i none),
             { v with
               len := v.len - 1
               data := v.data.set i (v.data.getD (v.len - 1) none) }) := by
        simp [ParallelVec.swap_remove, hcond, hlast]
      rw [e]
      exact ⟨rfl, rfl, ParallelVec.take_set _ _ _,
        ParallelVec.drop_set _ _ _,
        fun hlt => ParallelVec.getD_set_self _ _ _ _ (by omega)⟩

/-- Witness for C5 at a concrete input: removing index `0` from the
container `[5, 6]` returns the cell at index `0`. -/
theorem C5_witness :
    ((0 : Nat) < (((ParallelVec.new : ParallelVec Nat).push 5).push 6).len)
    ∧ ((((ParallelVec.new : ParallelVec Nat).push 5).push 6).len
        ≤ (((ParallelVec.new : ParallelVec Nat).push 5).push 6).data.length)
    ∧ (((((ParallelVec.new : ParallelVec Nat).push 5).push 6).swap_remove 0).1
        = some ((((ParallelVec.new : ParallelVec Nat).push 5).push 6).data.getD
            0 none)) := by
  refine ⟨by decide, by decide, ?_⟩
  exact ((C5_swap_remove_correct (((ParallelVec.new : ParallelVec Nat).push
    5).push 6) 0).2 (by decide) (by decide)).1

/-- **C6**: `reserve k` leaves `len` and the first `len` cells unchanged and
ensures `capacity >= len + k`; when `len + k > capacity` beforehand, the new
capacity is `max 4 (next_power_of_two (len + k))`. -/
theorem C6_reserve_correct {α : Type} (v : ParallelVec α) (k : Nat)
    (hwf : v.len ≤ v.data.length) :
    (v.reserve k).len = v.len
    ∧ v.len + k ≤ (v.reserve k).capacity
    ∧ (v.reserve k).data.take v.len = v.data.take v.len
    ∧ (v.capacity < v.len + k →
        (v.reserve k).capacity
          = max 4 (ParallelVec.next_power_of_two (v.len + k))) := by
  by_cases hg : v.len + k > v.capacity
  · have e : v.reserve k
        = { len := v.len,
            capacity := max (ParallelVec.next_power_of_two (v.len + k)) 4,
            storage := v.storage + 1,
            data := ParallelVec.allocCopy v.data v.len
              (max (ParallelVec.next_power_of_two (v.len + k)) 4) } := by
      simp [ParallelVec.reserve, hg]
    rw [e]
    refine ⟨rfl, le_trans ParallelVec.npot_ge (le_max_left _ _), ?_,
      fun _ => Nat.max_comm _ _⟩
    exact ParallelVec.allocCopy_take _ _ _ hwf
      (le_trans (Nat.le_add_right _ _)
        (le_trans ParallelVec.npot_ge (le_max_left _ _)))
  · have e : v.reserve k = v := by
      simp [ParallelVec.reserve, hg]
    rw [e]
    exact ⟨rfl, by omega, rfl, fun hc => absurd hc (by omega)⟩

/-- Witness for C6 at a concrete input: reserving `7` more slots on the
one-element container `[5]` keeps its length. -/
theorem C6_witness :
    (((ParallelVec.new : ParallelVec Nat).push 5).len
      ≤ ((ParallelVec.new : ParallelVec Nat).push 5).data.length)
    ∧ ((((ParallelVec.new : ParallelVec Nat).push 5).reserve 7).len
      = ((ParallelVec.new : ParallelVec Nat).push 5).len) := by
  refine ⟨by decide, ?_⟩
  exact (C6_reserve_correct ((ParallelVec.new : ParallelVec Nat).push 5) 7
    (by decide)).1

/-- **C7**: after `shrink_to_fit` the capacity equals `len`; a second
`shrink_to_fit` changes neither capacity, length nor any stored cell; and in
general `shrink_to m` is a no-op when `m` exceeds the capacity and otherwise
sets the capacity to `max len m`. -/
theorem C7_shrink_correct {α : Type} (v : ParallelVec α) (m : Nat)
    (hc : v.len ≤ v.capacity) :
    v.shrink_to_fit.capacity = v.len
    ∧ v.shrink_to_fit.shrink_to_fit.capacity = v.shrink_to_fit.capacity
    ∧ v.shrink_to_fit.shrink_to_fit.len = v.shrink_to_fit.len
    ∧ v.shrink_to_fit.shrink_to_fit.data = v.shrink_to_fit.data
    ∧ (v.capacity < m → v.shrink_to m = v)
    ∧ (m ≤ v.capacity → (v.shrink_to m).capacity = max v.len m) := by
  have h1 : ¬ v.len > v.capacity := Nat.not_lt.mpr hc
  have e1 : v.shrink_to_fit
      = { len := v.len, capacity := v.len, storage := v.storage + 1,
          data := ParallelVec.allocCopy v.data v.len v.len } := by
    simp [ParallelVec.shrink_to_fit, ParallelVec.shrink_to, h1]
  have e2 : v.shrink_to_fit.shrink_to_fit
      = { len := v.len, capacity := v.len, storage := v.storage + 1 + 1,
          data := ParallelVec.allocCopy v.data v.len v.len } := by
    rw [e1]
    simp [ParallelVec.shrink_to_fit, ParallelVec.shrink_to,
      ParallelVec.allocCopy_idem]
  refine ⟨by rw [e1], by rw [e2, e1], by rw [e2, e1], by rw [e2, e1],
    fun hm => ?_, fun hm => ?_⟩
  · simp [ParallelVec.shrink_to, hm]
  · have hm2 : ¬ m > v.capacity := Nat.not_lt.mpr hm
    simp [ParallelVec.shrink_to, hm2]

/-- Witness for C7 at a concrete input: `shrink_to_fit` on the one-element
container `[5]` brings the capacity down to the length `1`. -/
theorem C7_witness :
    (((ParallelVec.new : ParallelVec Nat).push 5).len
      ≤ ((ParallelVec.new : ParallelVec Nat).push 5).capacity)
    ∧ (((ParallelVec.new : ParallelVec Nat).push 5).shrink_to_fit.capacity
      = ((ParallelVec.new : ParallelVec Nat).push 5).len) := by
  refine ⟨by decide, ?_⟩
  exact (C7_shrink_correct ((ParallelVec.new : ParallelVec Nat).push 5) 0
    (by decide)).1

namespace ParallelVec

theorem reserve_len {α : Type} (v : ParallelVec α) (k : Nat) :
    (v.reserve k).len = v.len := by
  unfold reserve
  dsimp only
  split <;> rfl

theorem reserve_capacity_ge {α : Type} (v : ParallelVec α) (k : Nat) :
    v.len + k ≤ (v.reserve k).capacity := by
  unfold reserve
  dsimp only
  split
  · exact le_trans npot_ge (le_max_left _ _)
  · omega

theorem reserve_noop {α : Type} (v : ParallelVec α) (k : Nat)
    (h : v.len + k ≤ v.capacity) : v.reserve k = v := by
  unfold reserve
  rw [if_neg (by omega)]

theorem truncate_capacity {α : Type} (v : ParallelVec α) (n : Nat) :
    (v.truncate n).1.capacity = v.capacity := by
  unfold truncate
  split <;> rfl

theorem truncate_storage {α : Type} (v : ParallelVec α) (n : Nat) :
    (v.truncate n).1.storage = v.storage := by
  unfold truncate
  split <;> rfl

theorem truncate_len_le {α : Type} (v : ParallelVec α) (n : Nat) :
    (v.truncate n).1.len ≤ v.len := by
  unfold truncate
  split
  · exact le_refl _
  · show n ≤ v.len
    omega

theorem pop_capacity {α : Type} (v : ParallelVec α) :
    (v.pop).2.capacity = v.capacity := by
  unfold pop
  split <;> rfl

theorem pop_storage {α : Type} (v : ParallelVec α) :
    (v.pop).2.storage = v.storage := by
  unfold pop
  split <;> rfl

theorem pop_len_le {α : Type} (v : ParallelVec α) :
    (v.pop).2.len ≤ v.len := by
  unfold pop
  split
  · exact le_refl _
  · show v.len - 1 ≤ v.len
    omega

theorem swap_capacity {α : Type} (v : ParallelVec α) (a b : Nat) :
    (v.swap a b).capacity = v.capacity := by
  unfold swap
  split
  · rfl
  · split <;> rfl

theorem swap_storage {α : Type} (v : ParallelVec α) (a b : Nat) :
    (v.swap a b).storage = v.storage := by
  unfold swap
  split
  · rfl
  · split <;> rfl

theorem swap_len {α : Type} (v : ParallelVec α) (a b : Nat) :
    (v.swap a b).len = v.len := by
  unfold swap
  split
  · rfl
  · split <;> rfl

theorem swap_remove_capacity {α : Type} (v : ParallelVec α) (i : Nat) :
    (v.swap_remove i).2.capacity = v.capacity := by
  unfold swap_remove
  split
  · rfl
  · dsimp only
    split <;> rfl

theorem swap_remove_storage {α : Type} (v : ParallelVec α) (i : Nat) :
    (v.swap_remove i).2.storage = v.storage := by
  unfold swap_remove
  split
  · rfl
  · dsimp only
    split <;> rfl

theorem swap_remove_len_le {α : Type} (v : ParallelVec α) (i : Nat) :
    (v.swap_remove i).2.len ≤ v.len := by
  unfold swap_remove
  split
  · exact le_refl _
  · dsimp only
    split
    · show v.len - 1 ≤ v.len
      omega
    · show v.len - 1 ≤ v.len
      omega

theorem shrink_to_len {α : Type} (v : ParallelVec α) (m : Nat) :
    (v.shrink_to m).len = v.len := by
  unfold shrink_to
  split <;> rfl

theorem shrink_to_capacity_ge {α : Type} (v : ParallelVec α) (m : Nat)
    (h : v.len ≤ v.capacity) : v.len ≤ (v.shrink_to m).capacity := by
  unfold shrink_to
  split
  · exact h
  · exact le_max_left _ _

theorem append_self_len {α : Type} (v o : ParallelVec α) :
    (v.append o).1.len = v.len := by
  show (v.reserve o.len).len = v.len
  exact reserve_len _ _

theorem append_self_capacity_ge {α : Type} (v o : ParallelVec α) :
    v.len ≤ (v.append o).1.capacity := by
  show v.len ≤ (v.reserve o.len).capacity
  exact le_trans (Nat.le_add_right _ _) (reserve_capacity_ge _ _)

theorem applyOp_inv {α : Type} (v : ParallelVec α) (op : Op α)
    (h : v.len ≤ v.capacity) :
    (applyOp v op).len ≤ (applyOp v op).capacity := by
  cases op with
  | push value =>
    have h1 := reserve_capacity_ge v 1
    show (v.reserve 1).len + 1 ≤ (v.reserve 1).capacity
    rw [reserve_len]
    omega
  | pop =>
    have h1 := pop_len_le v
    have h2 := pop_capacity v
    show (v.pop).2.len ≤ (v.pop).2.capacity
    omega
  | swap a b =>
    have h1 := swap_len v a b
    have h2 := swap_capacity v a b
    show (v.swap a b).len ≤ (v.swap a b).capacity
    omega
  | swap_remove i =>
    have h1 := swap_remove_len_le v i
    have h2 := swap_remove_capacity v i
    show (v.swap_remove i).2.len ≤ (v.swap_remove i).2.capacity
    omega
  | truncate n =>
    have h1 := truncate_len_le v n
    have h2 := truncate_capacity v n
    show (v.truncate n).1.len ≤ (v.truncate n).1.capacity
    omega
  | clear =>
    have h1 := truncate_len_le v 0
    have h2 := truncate_capacity v 0
    show (v.truncate 0).1.len ≤ (v.truncate 0).1.capacity
    omega
  | reserve k =>
    have h1 := reserve_capacity_ge v k
    show (v.reserve k).len ≤ (v.reserve k).capacity
    rw [reserve_len]
    omega
  | shrink_to m =>
    have h1 := shrink_to_capacity_ge v m h
    show (v.shrink_to m).len ≤ (v.shrink_to m).capacity
    rw [shrink_to_len]
    omega
  | shrink_to_fit =>
    have h1 := shrink_to_capacity_ge v v.len h
    show (v.shrink_to v.len).len ≤ (v.shrink_to v.len).capacity
    rw [shrink_to_len]
    omega
  | append other =>
    have h1 := append_self_len v other
    have h2 := append_self_capacity_ge v other
    show (v.append other).1.len ≤ (v.append other).1.capacity
    omega

theorem foldl_applyOp_inv {α : Type} (ops : List (Op α)) (v : ParallelVec α)
    (h : v.len ≤ v.capacity) :
    (ops.foldl applyOp v).len ≤ (ops.foldl applyOp v).capacity := by
  induction ops generalizing v with
  | nil => exact h
  | cons op rest ih => exact ih _ (applyOp_inv v op h)

end ParallelVec

/-- **C8**: starting from `new` or from `with_capacity c`, after any sequence
of the public operations (`push`, `pop`, `swap`, `swap_remove`, `truncate`,
`clear`, `reserve`, `shrink_to`, `shrink_to_fit`, `append`) the invariant
`len <= capacity` holds. -/
theorem C8_len_le_capacity {α : Type} (c : Nat)
    (ops : List (ParallelVec.Op α)) :
    ((ops.foldl ParallelVec.applyOp (ParallelVec.new : ParallelVec α)).len
      ≤ (ops.foldl ParallelVec.applyOp (ParallelVec.new : ParallelVec α)).capacity)
    ∧ ((ops.foldl ParallelVec.applyOp
          (ParallelVec.with_capacity c : ParallelVec α)).len
      ≤ (ops.foldl ParallelVec.applyOp
          (ParallelVec.with_capacity c : ParallelVec α)).capacity) := by
  constructor
  · exact ParallelVec.foldl_applyOp_inv ops _ (le_refl 0)
  · refine ParallelVec.foldl_applyOp_inv ops _ ?_
    unfold ParallelVec.with_capacity
    split
    · exact le_refl 0
    · exact Nat.zero_le c

/-- **C10**: `truncate`, `clear`, `pop`, `swap` and `swap_remove` never change
`capacity` or the `storage` allocation, and `reserve k` with
`len + k <= capacity` is a complete no-op. -/
theorem C10_frame_effects {α : Type} (v : ParallelVec α) (n a b i k : Nat) :
    (v.truncate n).1.capacity = v.capacity
    ∧ (v.truncate n).1.storage = v.storage
    ∧ (v.clear).1.capacity = v.capacity
    ∧ (v.clear).1.storage = v.storage
    ∧ (v.pop).2.capacity = v.capacity
    ∧ (v.pop).2.storage = v.storage
    ∧ (v.swap a b).capacity = v.capacity
    ∧ (v.swap a b).storage = v.storage
    ∧ (v.swap_remove i).2.capacity = v.capacity
    ∧ (v.swap_remove i).2.storage = v.storage
    ∧ (v.len + k ≤ v.capacity → v.reserve k = v) :=
  ⟨ParallelVec.truncate_capacity v n, ParallelVec.truncate_storage v n,
   ParallelVec.truncate_capacity v 0, ParallelVec.truncate_storage v 0,
   ParallelVec.pop_capacity v, ParallelVec.pop_storage v,
   ParallelVec.swap_capacity v a b, ParallelVec.swap_storage v a b,
   ParallelVec.swap_remove_capacity v i, ParallelVec.swap_remove_storage v i,
   ParallelVec.reserve_noop v k⟩

/-- Witness for C10 at a concrete input: `reserve 1` on the one-element
container `[5]` (capacity `4`) is a no-op. -/
theorem C10_witness :
    (((ParallelVec.new : ParallelVec Nat).push 5).len + 1
      ≤ ((ParallelVec.new : ParallelVec Nat).push 5).capacity)
    ∧ (((ParallelVec.new : ParallelVec Nat).push 5).reserve 1
      = (ParallelVec.new : ParallelVec Nat).push 5) := by
  refine ⟨by decide, ?_⟩
  exact (C10_frame_effects ((ParallelVec.new : ParallelVec Nat).push 5)
    0 0 0 0 1).2.2.2.2.2.2.2.2.2.2 (by decide)
